import Mathlib

set_option allowUnsafeReducibility true

attribute [local semireducible] Rat.add Rat.mul Rat.div Rat.sub Rat.inv Rat.neg

/-!
Shallow embedding of the diatonic content generator and analytics engine of
the ear-training application (TypeScript sources: `scaleContext.ts`,
`audioEngine.ts`, `curriculum.ts`, `analytics.ts`, `App.tsx`), together with
theorems checking the specification's claims against it.

JavaScript conventions are modelled explicitly:
- array indexing out of range yields the string sentinel `"undefined"`
  (claims only exercise in-range indices);
- `Array.prototype.indexOf` yields `-1` when the element is absent;
- the `%` operator is truncated remainder (`Int.tmod`);
- `Math.floor(Math.random() * n)` draws are supplied by an explicit
  `rng : Nat -> Nat` argument, one draw per call site occurrence;
- `Map` iteration order is insertion order, modelled by association lists
  where setting an existing key updates it in place and a new key appends;
- `Array.prototype.sort` is a stable sort, modelled by insertion sort;
- JS numbers are modelled by `Rat` (`Int` for timestamps).
-/

/-- JS array read `l[i]` on a string array: `"undefined"` when out of range. -/
def jsGetS (l : List String) (i : Int) : String :=
  if 0 ≤ i then l.getD i.toNat "undefined" else "undefined"

/-- JS `Array.prototype.indexOf` on a string array: `-1` when absent. -/
def jsIndexOf (l : List String) (s : String) : Int :=
  match List.indexOf? s l with
  | some i => (i : Int)
  | none => -1

/-- JS `Array.prototype.indexOf` on a number array: `-1` when absent. -/
def jsIndexOfInt (l : List Int) (v : Int) : Int :=
  match List.indexOf? v l with
  | some i => (i : Int)
  | none => -1

/-- JS `%`, truncated remainder. -/
def jsMod (a b : Int) : Int := Int.tmod a b

/-- JS `Array.prototype.filter` whose callback also receives the index. -/
def jsFilterIdx {α : Type} (p : α → Nat → Bool) (l : List α) : List α :=
  (l.enum.filter (fun q => p q.2 q.1)).map Prod.snd

/-- JS truthiness of an optional string: `undefined` and `""` are falsy. -/
def jsTruthyStr (o : Option String) : Bool :=
  match o with
  | none => false
  | some s => !(s == "")

/-- JS `word.charAt(0).toUpperCase() + word.slice(1)`. -/
def jsCapitalize (w : String) : String :=
  match w.data with
  | [] => ""
  | c :: rest => String.mk (c.toUpper :: rest)

/-- The 12 pitch classes in chromatic order (`NOTES` in the sources). -/
def NOTES : List String :=
  ["C", "C#", "D", "D#", "E", "F"] ++ ["F#", "G", "G#", "A", "A#", "B"]

/-- Major scale semitone offsets (`MAJOR_SCALE` in `scaleContext.ts`). -/
def MAJOR_SCALE : List Int := [0, 2, 4, 5, 7, 9, 11]

/-- An entry of the diatonic chord tables of `scaleContext.ts`. -/
structure DegreeChord where
  degree : Nat
  type : String
deriving DecidableEq, Repr

/-- Diatonic triads of the major scale (`DIATONIC_TRIADS`, `scaleContext.ts`). -/
def DIATONIC_TRIADS : List DegreeChord :=
  [⟨0, "major"⟩, ⟨1, "minor"⟩, ⟨2, "minor"⟩, ⟨3, "major"⟩,
   ⟨4, "major"⟩, ⟨5, "minor"⟩, ⟨6, "diminished"⟩]

/-- Diatonic sevenths of the major scale (`DIATONIC_SEVENTHS`, `scaleContext.ts`). -/
def DIATONIC_SEVENTHS : List DegreeChord :=
  [⟨0, "major_7"⟩, ⟨1, "minor_7"⟩, ⟨2, "minor_7"⟩, ⟨3, "major_7"⟩,
   ⟨4, "dominant_7"⟩, ⟨5, "minor_7"⟩, ⟨6, "half_diminished_7"⟩]

/-- The diatonic interval names (`getDiatonicIntervals`, `scaleContext.ts`). -/
def getDiatonicIntervals : List String :=
  ["major_2nd", "minor_2nd", "minor_3rd", "major_3rd", "perfect_4th",
   "perfect_5th", "major_6th", "minor_6th", "major_7th", "minor_7th", "octave"]

/-- A (root, type) candidate pair as returned by the diatonic filter. -/
structure Chord where
  root : String
  type : String
deriving DecidableEq, Repr

/-- `getDiatonicTriads` of `scaleContext.ts`. -/
def getDiatonicTriads (rootNote : String) : List Chord :=
  let notes := NOTES
  let rootIndex := jsIndexOf notes rootNote
  DIATONIC_TRIADS.map (fun dc =>
    let semitones := MAJOR_SCALE.getD dc.degree 0
    let noteIndex := jsMod (rootIndex + semitones) 12
    { root := jsGetS notes noteIndex, type := dc.type })

/-- `getDiatonicSevenths` of `scaleContext.ts`. -/
def getDiatonicSevenths (rootNote : String) : List Chord :=
  let notes := NOTES
  let rootIndex := jsIndexOf notes rootNote
  DIATONIC_SEVENTHS.map (fun dc =>
    let semitones := MAJOR_SCALE.getD dc.degree 0
    let noteIndex := jsMod (rootIndex + semitones) 12
    { root := jsGetS notes noteIndex, type := dc.type })

/-- The scale notes computed at line 86 of `scaleContext.ts`. -/
def scaleNotesFor (scaleRoot : String) : List String :=
  MAJOR_SCALE.map (fun semitones =>
    jsGetS NOTES (jsMod (jsIndexOf NOTES scaleRoot + semitones) 12))

/-- The allowed scale degrees (line 89 of `scaleContext.ts`): all 7 if not specified. -/
def allowedDegreesFor (scaleDegrees : Option (List Nat)) : List Nat :=
  scaleDegrees.getD [0, 1, 2, 3, 4, 5, 6]

/-- The allowed roots (line 90 of `scaleContext.ts`). -/
def allowedRootsFor (scaleRoot : String) (scaleDegrees : Option (List Nat)) : List String :=
  (allowedDegreesFor scaleDegrees).map (fun degree => (scaleNotesFor scaleRoot).getD degree "undefined")

/-- `filterDiatonicItems` of `scaleContext.ts`. The `rng` argument supplies the
successive `Math.floor(Math.random() * allowedRoots.length)` draws of the
interval branch, one per produced pair. -/
def filterDiatonicItems (rng : Nat → Nat) (items : List String) (questionType : String)
    (scaleRoot : String) (scaleDegrees : Option (List Nat)) : List Chord :=
  let allowedRoots := allowedRootsFor scaleRoot scaleDegrees
  if questionType == "interval" then
    let diatonicIntervals := getDiatonicIntervals
    let validIntervals := items.filter (fun item => diatonicIntervals.contains item)
    validIntervals.enum.map (fun it =>
      { root := allowedRoots.getD (rng it.1) "undefined", type := it.2 })
  else if questionType == "triad" then
    jsFilterIdx (fun chord index =>
      items.contains chord.type && (allowedDegreesFor scaleDegrees).contains index)
      (getDiatonicTriads scaleRoot)
  else if questionType == "seventh_chord" then
    jsFilterIdx (fun chord index =>
      items.contains chord.type && (allowedDegreesFor scaleDegrees).contains index)
      (getDiatonicSevenths scaleRoot)
  else
    items.map (fun t => { root := scaleRoot, type := t })

/-- Triad chord formulas (`TRIADS` object of `audioEngine.ts`). -/
structure TriadsTable where
  major : List Int
  minor : List Int
  diminished : List Int
  augmented : List Int
deriving DecidableEq, Repr

/-- `TRIADS` of `audioEngine.ts`. -/
def TRIADS : TriadsTable :=
  { major := [0, 4, 7], minor := [0, 3, 7], diminished := [0, 3, 6], augmented := [0, 4, 8] }

/-- Seventh chord formulas (`SEVENTH_CHORDS` object of `audioEngine.ts`). -/
structure SeventhChordsTable where
  major_7 : List Int
  minor_7 : List Int
  dominant_7 : List Int
  half_diminished_7 : List Int
  diminished_7 : List Int
  minor_major_7 : List Int
  augmented_major_7 : List Int
deriving DecidableEq, Repr

/-- `SEVENTH_CHORDS` of `audioEngine.ts`. -/
def SEVENTH_CHORDS : SeventhChordsTable :=
  { major_7 := [0, 4, 7, 11], minor_7 := [0, 3, 7, 10], dominant_7 := [0, 4, 7, 10],
    half_diminished_7 := [0, 3, 6, 10], diminished_7 := [0, 3, 6, 9],
    minor_major_7 := [0, 3, 7, 11], augmented_major_7 := [0, 4, 8, 11] }

/-- Mode formulas (`MODES` object of `audioEngine.ts`). -/
structure ModesTable where
  ionian : List Int
  dorian : List Int
  phrygian : List Int
  lydian : List Int
  mixolydian : List Int
  aeolian : List Int
  locrian : List Int
deriving DecidableEq, Repr

/-- `MODES` of `audioEngine.ts`. -/
def MODES : ModesTable :=
  { ionian := [0, 2, 4, 5, 7, 9, 11], dorian := [0, 2, 3, 5, 7, 9, 10],
    phrygian := [0, 1, 3, 5, 7, 8, 10], lydian := [0, 2, 4, 6, 7, 9, 11],
    mixolydian := [0, 2, 4, 5, 7, 9, 10], aeolian := [0, 2, 3, 5, 7, 8, 10],
    locrian := [0, 1, 3, 5, 6, 8, 10] }

/-- The scale chosen by `playScaleDegree` (lines 411-413 of `audioEngine.ts`). -/
def scaleForContext (context : String) : List Int :=
  if context == "natural_minor" || context == "minor_triads" || context == "minor_7ths" then
    MODES.aeolian
  else
    MODES.ionian

/-- The chord formula chosen by the harmonic branch of `playScaleDegree`
(lines 437-461 of `audioEngine.ts`): the triad branch inspects only the third,
the seventh-chord branch inspects third and seventh. -/
def playScaleDegreeChordFormula (context : String) (degree : Nat) : List Int :=
  let scale := scaleForContext context
  let degreeSemitones := scale.getD degree 0
  if context == "major_triads" || context == "minor_triads" then
    let third := scale.getD ((degree + 2) % 7) 0
    let thirdInterval := jsMod (third - degreeSemitones + 12) 12
    if thirdInterval == 4 then TRIADS.major else TRIADS.minor
  else
    let third := scale.getD ((degree + 2) % 7) 0
    let seventh := scale.getD ((degree + 6) % 7) 0
    let thirdInterval := jsMod (third - degreeSemitones + 12) 12
    let seventhInterval := jsMod (seventh - degreeSemitones + 12) 12
    if thirdInterval == 4 && seventhInterval == 11 then SEVENTH_CHORDS.major_7
    else if thirdInterval == 3 && seventhInterval == 10 then SEVENTH_CHORDS.minor_7
    else if thirdInterval == 4 && seventhInterval == 10 then SEVENTH_CHORDS.dominant_7
    else if thirdInterval == 3 && seventhInterval == 9 then SEVENTH_CHORDS.diminished_7
    else SEVENTH_CHORDS.half_diminished_7

/-- Canonical triad qualities of the natural-minor scale degrees.
Modelled from the spec: the canonical natural-minor sequence
[minor, diminished, major, minor, minor, major, major] cited by the spec;
no table for it exists in the source (the major-scale analogue is
`DIATONIC_TRIADS`). -/
def specMinorTriadQualities : List String :=
  ["minor", "diminished", "major", "minor", "minor", "major", "major"]

/-- The triad formula belonging to a quality label, per the `TRIADS` table. -/
def triadFormulaOfQuality (q : String) : List Int :=
  if q == "major" then TRIADS.major
  else if q == "minor" then TRIADS.minor
  else if q == "diminished" then TRIADS.diminished
  else TRIADS.augmented

/-- A curriculum level (`CurriculumLevel` of `types.ts`, fields used by
`curriculum.ts`); the unlock requirement is an accuracy percentage. -/
structure CurriculumLevel where
  id : String
  name : String
  type : String
  items : List String
  unlockRequirement : Rat
  description : String
deriving DecidableEq, Repr

/-- The `CURRICULUM` table of `curriculum.ts` (the ten-level table containing
`level_1` .. `level_10`). -/
def CURRICULUM : List CurriculumLevel :=
  [{ id := "level_1", name := "Major vs Minor Thirds", type := "interval",
     items := ["minor_3rd", "major_3rd"], unlockRequirement := 80,
     description := "Learn to distinguish between major and minor thirds - the foundation of chord quality" },
   { id := "level_2", name := "Basic Intervals", type := "interval",
     items := ["minor_2nd", "major_2nd", "minor_3rd", "major_3rd", "perfect_4th", "perfect_5th"],
     unlockRequirement := 75,
     description := "Master the most common intervals used in melodies" },
   { id := "level_3", name := "Major vs Minor Triads", type := "triad",
     items := ["major", "minor"], unlockRequirement := 80,
     description := "Apply your third knowledge to full chords" },
   { id := "level_4", name := "Extended Intervals", type := "interval",
     items := ["minor_6th", "major_6th", "minor_7th", "major_7th", "octave"],
     unlockRequirement := 75,
     description := "Learn larger intervals for more complex melodies" },
   { id := "level_5", name := "Perfect Fifth", type := "interval",
     items := ["perfect_5th"], unlockRequirement := 85,
     description := "Master the perfect fifth - crucial for understanding chord progressions" },
   { id := "level_6", name := "All Triads", type := "triad",
     items := ["major", "minor", "diminished", "augmented"], unlockRequirement := 75,
     description := "Complete your triad knowledge with diminished and augmented chords" },
   { id := "level_7", name := "Common Seventh Chords", type := "seventh_chord",
     items := ["major_7", "minor_7", "dominant_7"], unlockRequirement := 75,
     description := "Learn the most common seventh chords in jazz and popular music" },
   { id := "level_8", name := "Advanced Seventh Chords", type := "seventh_chord",
     items := ["major_7", "minor_7", "dominant_7", "half_diminished_7", "diminished_7", "minor_major_7"],
     unlockRequirement := 70,
     description := "Master all seventh chord qualities" },
   { id := "level_9", name := "Major vs Minor Modes", type := "mode",
     items := ["ionian", "lydian", "mixolydian", "aeolian", "dorian"],
     unlockRequirement := 70,
     description := "Distinguish between major-sounding and minor-sounding modes" },
   { id := "level_10", name := "All Modes", type := "mode",
     items := ["ionian", "dorian", "phrygian", "lydian", "mixolydian", "aeolian", "locrian"],
     unlockRequirement := 70,
     description := "Master all seven modes of the major scale" }]

/-- A placeholder value standing for the JS `undefined` a level lookup would
yield on an out-of-range index; unreachable because `CURRICULUM` is nonempty. -/
def undefinedLevel : CurriculumLevel :=
  { id := "undefined", name := "", type := "", items := [], unlockRequirement := 0, description := "" }

/-- `getCurrentLevel` of `curriculum.ts`: the first level the completed set
misses, else `CURRICULUM[CURRICULUM.length - 1]`. -/
def getCurrentLevel (completedLevels : List String) : CurriculumLevel :=
  match CURRICULUM.find? (fun level => !(completedLevels.contains level.id)) with
  | some nextLevel => nextLevel
  | none => CURRICULUM.getD (CURRICULUM.length - 1) undefinedLevel

/-- `canUnlockNextLevel` of `curriculum.ts`. -/
def canUnlockNextLevel (currentLevelId : String) (accuracy : Rat) : Bool :=
  match CURRICULUM.find? (fun level => level.id == currentLevelId) with
  | none => false
  | some currentLevel => decide (currentLevel.unlockRequirement ≤ accuracy)

/-- JS `String.prototype.split` with a one-character separator, at character
level (empty pieces are kept, as in JS). -/
def jsSplitChar (sep : Char) : List Char → List (List Char)
  | [] => [[]]
  | x :: xs =>
    match jsSplitChar sep xs with
    | [] => [[]]
    | h :: t => if x == sep then [] :: h :: t else (x :: h) :: t

/-- `getDisplayName` of `curriculum.ts`: snake_case to Title Case. -/
def getDisplayName (item : String) : String :=
  String.intercalate " " ((jsSplitChar '_' item.data).map (fun w => jsCapitalize (String.mk w)))

/-- An answer record (`Answer` of `types.ts`, with the interval
direction/presentation fields used by `App.tsx` and the analytics engine). -/
structure Answer where
  questionId : String
  userAnswer : String
  correctAnswer : String
  fullDescription : String
  isCorrect : Bool
  timestamp : Int
  responseTime : Rat
  itemType : String
  scaleDegree : Option Nat
  rootNote : String
  questionType : String
  intervalDirection : Option String
  intervalPresentation : Option String
deriving DecidableEq, Repr

/-- `WeaknessReport` of `types.ts`. -/
structure WeaknessReport where
  item : String
  attempts : Nat
  correct : Nat
  accuracy : Rat
deriving DecidableEq, Repr

/-- `ScaleDegreeWeakness` of `types.ts`. -/
structure ScaleDegreeWeakness where
  degree : Nat
  attempts : Nat
  correct : Nat
  accuracy : Rat
  context : String
deriving DecidableEq, Repr

/-- `IntervalWeakness` of `types.ts`. -/
structure IntervalWeakness where
  interval : String
  direction : Option String
  presentation : Option String
  attempts : Nat
  correct : Nat
  accuracy : Rat
  context : String
deriving DecidableEq, Repr

/-- `ConfusionPair` of `types.ts`. -/
structure ConfusionPair where
  mistook : String
  actuallyWas : String
  count : Nat
deriving DecidableEq, Repr

/-- `SessionStats` of `types.ts`. -/
structure SessionStats where
  totalQuestions : Nat
  correctAnswers : Nat
  accuracy : Rat
  weaknesses : List WeaknessReport
  scaleDegreeWeaknesses : List ScaleDegreeWeakness
  intervalWeaknesses : List IntervalWeakness
  confusionMatrix : List ConfusionPair
deriving DecidableEq, Repr

/-- Insert `x` into a sorted list, after every element `y` with `le y x`;
the helper of the stable sort below. -/
def jsInsertSorted {α : Type} (le : α → α → Bool) (x : α) : List α → List α
  | [] => [x]
  | y :: ys => if le y x then y :: jsInsertSorted le x ys else x :: y :: ys

/-- JS `Array.prototype.sort` with a consistent comparator: a stable sort,
modelled as insertion sort placing later elements after equal earlier ones. -/
def jsStableSort {α : Type} (le : α → α → Bool) (l : List α) : List α :=
  l.foldl (fun acc x => jsInsertSorted le x acc) []

/-- JS `Map.prototype.get`, on an insertion-ordered association list. -/
def mapGet {ν : Type} (m : List (String × ν)) (k : String) : Option ν :=
  (m.find? (fun p => p.1 == k)).map Prod.snd

/-- JS `Map.prototype.set`: update in place when present, append when new. -/
def mapSet {ν : Type} (m : List (String × ν)) (k : String) (v : ν) : List (String × ν) :=
  if (m.find? (fun p => p.1 == k)).isSome then
    m.map (fun p => if p.1 == k then (k, v) else p)
  else
    m ++ [(k, v)]

/-- The per-item tally accumulated by `calculateWeaknesses`. -/
structure ItemTally where
  attempts : Nat
  correct : Nat
deriving DecidableEq, Repr

/-- The per-degree tally accumulated by `calculateScaleDegreeWeaknesses`. -/
structure DegreeTally where
  attempts : Nat
  correct : Nat
  degree : Nat
  questionType : String
deriving DecidableEq, Repr

/-- The per-variant tally accumulated by `calculateIntervalWeaknesses`. -/
structure IntervalTally where
  attempts : Nat
  correct : Nat
  interval : String
  direction : Option String
  presentation : Option String
deriving DecidableEq, Repr

/-- The Roman-numeral degree labels used by the analytics engine. -/
def degreeNames : List String :=
  ["I (Root)", "ii", "iii", "IV", "V (Dominant)", "vi", "vii°"]

/-- `calculateWeaknesses` of the analytics engine: group answers by
`fullDescription`, tally, then stable-sort ascending by accuracy. -/
def calculateWeaknesses (answers : List Answer) : List WeaknessReport :=
  let itemStats := answers.foldl (fun m answer =>
    let item := answer.fullDescription
    let stats := (mapGet m item).getD { attempts := 0, correct := 0 }
    let stats := { stats with
        attempts := stats.attempts + 1
        correct := if answer.isCorrect then stats.correct + 1 else stats.correct }
    mapSet m item stats) ([] : List (String × ItemTally))
  let reports := itemStats.map (fun p =>
    ({ item := p.1, attempts := p.2.attempts, correct := p.2.correct,
       accuracy := ((p.2.correct : Rat) / (p.2.attempts : Rat)) * 100 } : WeaknessReport))
  jsStableSort (fun a b => decide (a.accuracy ≤ b.accuracy)) reports

/-- `calculateScaleDegreeWeaknesses` of the analytics engine. -/
def calculateScaleDegreeWeaknesses (answers : List Answer) : List ScaleDegreeWeakness :=
  let degreeStats := answers.foldl (fun m answer =>
    match answer.scaleDegree with
    | none => m
    | some d =>
      let key := degreeNames.getD d "undefined" ++ "_" ++ answer.questionType
      let stats := (mapGet m key).getD
        { attempts := 0, correct := 0, degree := d, questionType := answer.questionType }
      let stats := { stats with
        attempts := stats.attempts + 1
        correct := if answer.isCorrect then stats.correct + 1 else stats.correct }
      mapSet m key stats) ([] : List (String × DegreeTally))
  let reports := degreeStats.map (fun p =>
    ({ degree := p.2.degree, attempts := p.2.attempts, correct := p.2.correct,
       accuracy := ((p.2.correct : Rat) / (p.2.attempts : Rat)) * 100,
       context := p.2.questionType ++ "s from " ++ degreeNames.getD p.2.degree "undefined" }
      : ScaleDegreeWeakness))
  jsStableSort (fun a b => decide (a.accuracy ≤ b.accuracy)) reports

/-- `calculateIntervalWeaknesses` of the analytics engine: only interval
answers carrying truthy direction and presentation participate. -/
def calculateIntervalWeaknesses (answers : List Answer) : List IntervalWeakness :=
  let intervalStats := answers.foldl (fun m answer =>
    if answer.questionType == "interval" && jsTruthyStr answer.intervalDirection
        && jsTruthyStr answer.intervalPresentation then
      let key := answer.itemType ++ "_" ++ answer.intervalDirection.getD ""
        ++ "_" ++ answer.intervalPresentation.getD ""
      let stats := (mapGet m key).getD
        { attempts := 0, correct := 0, interval := answer.itemType,
          direction := answer.intervalDirection, presentation := answer.intervalPresentation }
      let stats := { stats with
        attempts := stats.attempts + 1
        correct := if answer.isCorrect then stats.correct + 1 else stats.correct }
      mapSet m key stats
    else m) ([] : List (String × IntervalTally))
  let reports := intervalStats.map (fun p =>
    let intervalName := getDisplayName p.2.interval
    let directionStr := if jsTruthyStr p.2.direction then
        " (" ++ jsCapitalize (p.2.direction.getD "") ++ ")" else ""
    let presentationStr := if jsTruthyStr p.2.presentation then
        " [" ++ jsCapitalize (p.2.presentation.getD "") ++ "]" else ""
    ({ interval := p.2.interval, direction := p.2.direction, presentation := p.2.presentation,
       attempts := p.2.attempts, correct := p.2.correct,
       accuracy := ((p.2.correct : Rat) / (p.2.attempts : Rat)) * 100,
       context := intervalName ++ directionStr ++ presentationStr } : IntervalWeakness))
  jsStableSort (fun a b => decide (a.accuracy ≤ b.accuracy)) reports

/-- `calculateConfusionMatrix` of the analytics engine: for incorrect answers
only, keyed by decorated display names, stable-sorted descending by count. -/
def calculateConfusionMatrix (answers : List Answer) : List ConfusionPair :=
  let confusions := answers.foldl (fun m answer =>
    if answer.isCorrect then m
    else
      let mistookKey := getDisplayName answer.userAnswer
      let actuallyWasKey := getDisplayName answer.correctAnswer
      let keys :=
        if answer.questionType == "interval" && jsTruthyStr answer.intervalDirection
            && jsTruthyStr answer.intervalPresentation then
          let dirStr := if answer.intervalDirection.getD "" == "ascending" then "↑" else "↓"
          let presStr := if answer.intervalPresentation.getD "" == "harmonic" then "♫" else "→"
          (mistookKey ++ " " ++ dirStr ++ presStr, actuallyWasKey ++ " " ++ dirStr ++ presStr)
        else (mistookKey, actuallyWasKey)
      let key := keys.1 ++ "|" ++ keys.2
      mapSet m key ((mapGet m key).getD 0 + 1)) ([] : List (String × Nat))
  let pairs := confusions.map (fun p =>
    let parts := (jsSplitChar '|' p.1.data).map String.mk
    ({ mistook := parts.getD 0 "undefined", actuallyWas := parts.getD 1 "undefined",
       count := p.2 } : ConfusionPair))
  jsStableSort (fun a b => decide (b.count ≤ a.count)) pairs

/-- `getSessionStats` of the analytics engine. -/
def getSessionStats (answers : List Answer) : SessionStats :=
  let totalQuestions := answers.length
  let correctAnswers := (answers.filter (fun a => a.isCorrect)).length
  let accuracy : Rat :=
    if 0 < totalQuestions then ((correctAnswers : Rat) / (totalQuestions : Rat)) * 100 else 0
  { totalQuestions, correctAnswers, accuracy,
    weaknesses := calculateWeaknesses answers,
    scaleDegreeWeaknesses := calculateScaleDegreeWeaknesses answers,
    intervalWeaknesses := calculateIntervalWeaknesses answers,
    confusionMatrix := calculateConfusionMatrix answers }

/-- `getAverageResponseTime` of the analytics engine. -/
def getAverageResponseTime (answers : List Answer) : Rat :=
  if answers.length == 0 then 0
  else (answers.foldl (fun sum answer => sum + answer.responseTime) 0) / (answers.length : Rat)

/-- `getInsights` of the analytics engine: the sequential `insights.push`
calls become list concatenation in source order. -/
def getInsights (answers : List Answer) : List String :=
  let stats := getSessionStats answers
  if stats.totalQuestions == 0 then ["Complete some questions to see insights"]
  else
    let overall : List String :=
      if 90 ≤ stats.accuracy then ["🎉 Excellent performance! You\x27re ready for the next level."]
      else if 75 ≤ stats.accuracy then ["👍 Good work! A bit more practice and you\x27ll master this level."]
      else if 60 ≤ stats.accuracy then ["📚 Keep practicing. Focus on the items you\x27re struggling with."]
      else ["💪 This level is challenging. Take your time and focus on one item at a time."]
    let middle : List String :=
      if !stats.intervalWeaknesses.isEmpty then
        let weakIntervals := stats.intervalWeaknesses.filter (fun w =>
          decide (2 ≤ w.attempts) && decide (w.accuracy < 70))
        let focusLines := if !weakIntervals.isEmpty then
            ["🎯 Focus on: " ++ String.intercalate ", " ((weakIntervals.take 1).map IntervalWeakness.context)]
          else []
        let strongIntervals := stats.intervalWeaknesses.filter (fun w =>
          decide (2 ≤ w.attempts) && decide (85 ≤ w.accuracy))
        let strongLines := if !strongIntervals.isEmpty then
            ["✨ You\x27re strong at: " ++ String.intercalate ", " ((strongIntervals.take 1).map IntervalWeakness.context)]
          else []
        focusLines ++ strongLines
      else
        let weakItems := stats.weaknesses.filter (fun w =>
          decide (2 ≤ w.attempts) && decide (w.accuracy < 60))
        let focusLines := if !weakItems.isEmpty then
            ["🎯 Focus on: " ++ String.intercalate ", " ((weakItems.take 3).map WeaknessReport.item)]
          else []
        let strongItems := stats.weaknesses.filter (fun w =>
          decide (2 ≤ w.attempts) && decide (90 ≤ w.accuracy))
        let strongLines := if !strongItems.isEmpty then
            ["✨ You\x27re strong at: " ++ String.intercalate ", " ((strongItems.take 2).map WeaknessReport.item)]
          else []
        focusLines ++ strongLines
    let degreeLines : List String :=
      if !stats.scaleDegreeWeaknesses.isEmpty then
        let weakDegrees := stats.scaleDegreeWeaknesses.filter (fun w =>
          decide (2 ≤ w.attempts) && decide (w.accuracy < 60))
        if !weakDegrees.isEmpty then
          ["📍 Struggle with: " ++ String.intercalate ", " ((weakDegrees.take 2).map ScaleDegreeWeakness.context)]
        else []
      else []
    let confusionLines : List String :=
      if !stats.confusionMatrix.isEmpty then
        let topConfusion := stats.confusionMatrix.getD 0 { mistook := "undefined", actuallyWas := "undefined", count := 0 }
        let uniqueItems := (answers.map Answer.itemType).dedup
        let isIntervalLesson := answers.any (fun a =>
          jsTruthyStr a.intervalDirection && jsTruthyStr a.intervalPresentation)
        let shouldShowConfusion :=
          if isIntervalLesson then decide (2 < uniqueItems.length) else decide (2 < uniqueItems.length)
        if decide (2 ≤ topConfusion.count) && shouldShowConfusion then
          ["⚠️ Often confuse " ++ topConfusion.actuallyWas ++ " with " ++ topConfusion.mistook]
        else []
      else []
    overall ++ middle ++ degreeLines ++ confusionLines

/-- A question (`Question` of `types.ts`, fields used by `handleAnswer`). -/
structure Question where
  id : String
  type : String
  correctAnswer : String
  rootNote : String
  timestamp : Int
  context : Option String
  intervalDirection : Option String
  intervalPresentation : Option String
deriving DecidableEq, Repr

/-- The `Answer` record built by `handleAnswer` in `App.tsx` (lines 241-283):
the pure record construction, given the current question, the selected answer,
the session key `currentScaleRoot`, the question start time and the current
time. -/
def handleAnswerRecord (currentQuestion : Question) (answer : String)
    (currentScaleRoot : String) (questionStartTime now : Int) : Answer :=
  let isCorrect := answer == currentQuestion.correctAnswer
  let responseTime : Rat := ((now - questionStartTime : Int) : Rat)
  let fullDescription := currentQuestion.rootNote ++ " " ++ getDisplayName currentQuestion.correctAnswer
  let scaleDegree : Option Nat :=
    if currentQuestion.type != "scale_degree" && currentQuestion.type != "mode" then
      let rootIndex := jsIndexOf NOTES currentQuestion.rootNote
      let scaleRootIndex := jsIndexOf NOTES currentScaleRoot
      let interval := jsMod (rootIndex - scaleRootIndex + 12) 12
      let d := jsIndexOfInt MAJOR_SCALE interval
      if d == -1 then none else some d.toNat
    else none
  { questionId := currentQuestion.id, userAnswer := answer,
    correctAnswer := currentQuestion.correctAnswer, fullDescription, isCorrect,
    timestamp := now, responseTime, itemType := currentQuestion.correctAnswer,
    scaleDegree, rootNote := currentScaleRoot, questionType := currentQuestion.type,
    intervalDirection := currentQuestion.intervalDirection,
    intervalPresentation := currentQuestion.intervalPresentation }

/-- Spec-side selection: the chords of the diatonic chord list whose 0-based
scale-degree index lies in `S`, in scale order. -/
def selectDegrees (S : List Nat) (chords : List Chord) : List Chord :=
  (chords.enum.filter (fun q => S.contains q.1)).map Prod.snd

/-- Rule 1 of the spec's insight cascade: the overall-performance band,
thresholds 90 / 75 / 60, always exactly one line. -/
def insightRuleBand (stats : SessionStats) : List String :=
  if 90 ≤ stats.accuracy then ["🎉 Excellent performance! You\x27re ready for the next level."]
  else if 75 ≤ stats.accuracy then ["👍 Good work! A bit more practice and you\x27ll master this level."]
  else if 60 ≤ stats.accuracy then ["📚 Keep practicing. Focus on the items you\x27re struggling with."]
  else ["💪 This level is challenging. Take your time and focus on one item at a time."]

/-- Rule 2 of the spec's insight cascade: when interval-variant weaknesses
exist, at most one weak variant (at least 2 attempts, below 70%) and at most
one strong variant (at least 85%); otherwise up to 3 weak items (below 60%)
and up to 2 strong items (at least 90%) from the per-item weakness list; a
sub-rule that finds nothing emits no line. -/
def insightRuleFocus (stats : SessionStats) : List String :=
  if stats.intervalWeaknesses ≠ [] then
    let weakIntervals := stats.intervalWeaknesses.filter (fun w =>
      decide (2 ≤ w.attempts) && decide (w.accuracy < 70))
    let strongIntervals := stats.intervalWeaknesses.filter (fun w =>
      decide (2 ≤ w.attempts) && decide (85 ≤ w.accuracy))
    (if weakIntervals ≠ [] then
      ["🎯 Focus on: " ++ String.intercalate ", " ((weakIntervals.take 1).map IntervalWeakness.context)]
     else []) ++
    (if strongIntervals ≠ [] then
      ["✨ You\x27re strong at: " ++ String.intercalate ", " ((strongIntervals.take 1).map IntervalWeakness.context)]
     else [])
  else
    let weakItems := stats.weaknesses.filter (fun w =>
      decide (2 ≤ w.attempts) && decide (w.accuracy < 60))
    let strongItems := stats.weaknesses.filter (fun w =>
      decide (2 ≤ w.attempts) && decide (90 ≤ w.accuracy))
    (if weakItems ≠ [] then
      ["🎯 Focus on: " ++ String.intercalate ", " ((weakItems.take 3).map WeaknessReport.item)]
     else []) ++
    (if strongItems ≠ [] then
      ["✨ You\x27re strong at: " ++ String.intercalate ", " ((strongItems.take 2).map WeaknessReport.item)]
     else [])

/-- Rule 3 of the spec's insight cascade: up to 2 scale-degree weaknesses
with at least 2 attempts and accuracy below 60%; no line when none qualify. -/
def insightRuleDegrees (stats : SessionStats) : List String :=
  let weakDegrees := stats.scaleDegreeWeaknesses.filter (fun w =>
    decide (2 ≤ w.attempts) && decide (w.accuracy < 60))
  if weakDegrees ≠ [] then
    ["📍 Struggle with: " ++ String.intercalate ", " ((weakDegrees.take 2).map ScaleDegreeWeakness.context)]
  else []

/-- Rule 4 of the spec's insight cascade: the most frequent confusion pair
(the head of the count-sorted confusion matrix), reported only when its count
is at least 2 and more than 2 distinct item qualities were attempted. -/
def insightRuleConfusion (answers : List Answer) (stats : SessionStats) : List String :=
  if stats.confusionMatrix ≠ [] then
    let topConfusion := stats.confusionMatrix.getD 0
      { mistook := "undefined", actuallyWas := "undefined", count := 0 }
    if 2 ≤ topConfusion.count ∧ 2 < ((answers.map Answer.itemType).dedup).length then
      ["⚠️ Often confuse " ++ topConfusion.actuallyWas ++ " with " ++ topConfusion.mistook]
    else []
  else []

/-- The spec's insight cascade for a non-empty log: the four rules in
presentation order. -/
def getInsightsSpec (answers : List Answer) : List String :=
  let stats := getSessionStats answers
  insightRuleBand stats ++ insightRuleFocus stats ++ insightRuleDegrees stats
    ++ insightRuleConfusion answers stats

/-- A concrete correct answer used by witnesses. -/
def sampleAnswer : Answer :=
  { questionId := "q1", userAnswer := "major", correctAnswer := "major",
    fullDescription := "C Major", isCorrect := true, timestamp := 0,
    responseTime := 1000, itemType := "major", scaleDegree := some 0,
    rootNote := "C", questionType := "triad", intervalDirection := none,
    intervalPresentation := none }

/-- A concrete triad question on the second scale degree of C major,
used by witnesses and counterexamples. -/
def sampleQuestionOnD : Question :=
  { id := "q2", type := "triad", correctAnswer := "minor", rootNote := "D",
    timestamp := 0, context := none, intervalDirection := none,
    intervalPresentation := none }

/-- C1: at every degree other than the diminished one, the harmonic triad
playback formula agrees with the canonical diatonic quality, but at the
diminished degrees (degree 6 in a major context, degree 1 in natural minor)
the code picks the minor-triad formula [0,3,7] where the canonical quality --
recorded by the repository's own `DIATONIC_TRIADS` table, and by the spec's
natural-minor sequence -- is diminished, formula [0,3,6]. -/
theorem playScaleDegree_triad_formula_bug :
    (playScaleDegreeChordFormula "major_triads" 0 = triadFormulaOfQuality "major") ∧
    (playScaleDegreeChordFormula "major_triads" 1 = triadFormulaOfQuality "minor") ∧
    (playScaleDegreeChordFormula "major_triads" 2 = triadFormulaOfQuality "minor") ∧
    (playScaleDegreeChordFormula "major_triads" 3 = triadFormulaOfQuality "major") ∧
    (playScaleDegreeChordFormula "major_triads" 4 = triadFormulaOfQuality "major") ∧
    (playScaleDegreeChordFormula "major_triads" 5 = triadFormulaOfQuality "minor") ∧
    ((DIATONIC_TRIADS.map DegreeChord.type).getD 6 "undefined" = "diminished") ∧
    (playScaleDegreeChordFormula "major_triads" 6 = TRIADS.minor) ∧
    (TRIADS.minor ≠ triadFormulaOfQuality "diminished") ∧
    (specMinorTriadQualities.getD 1 "undefined" = "diminished") ∧
    (playScaleDegreeChordFormula "minor_triads" 1 = TRIADS.minor) ∧
    (playScaleDegreeChordFormula "minor_triads" 0 = triadFormulaOfQuality "minor") ∧
    (playScaleDegreeChordFormula "minor_triads" 2 = triadFormulaOfQuality "major") ∧
    (playScaleDegreeChordFormula "minor_triads" 3 = triadFormulaOfQuality "minor") ∧
    (playScaleDegreeChordFormula "minor_triads" 4 = triadFormulaOfQuality "minor") ∧
    (playScaleDegreeChordFormula "minor_triads" 5 = triadFormulaOfQuality "major") ∧
    (playScaleDegreeChordFormula "minor_triads" 6 = triadFormulaOfQuality "major") := by
  decide

/-- C7: `getSessionStats` on the empty answer log yields zero totals, accuracy
exactly 0 (a rational, no division is performed), and empty weakness,
scale-degree, interval and confusion lists. -/
theorem sessionStats_empty_log :
    getSessionStats [] =
      { totalQuestions := 0, correctAnswers := 0, accuracy := 0, weaknesses := [],
        scaleDegreeWeaknesses := [], intervalWeaknesses := [], confusionMatrix := [] } := by
  decide

/-- C5: for every key root among the 12 pitch classes, the triad filter with
all three diatonic qualities and no degree restriction returns exactly 7
pairs whose roots are the key's 7 diatonic notes in ascending scale order and
whose qualities follow the canonical sequence, for any random source. -/
theorem filterDiatonic_triads_all_keys (rng : Nat → Nat) (root : String) (h : root ∈ NOTES) :
    (filterDiatonicItems rng ["major", "minor", "diminished"] "triad" root none).length = 7 ∧
    (filterDiatonicItems rng ["major", "minor", "diminished"] "triad" root none).map Chord.root
      = scaleNotesFor root ∧
    (filterDiatonicItems rng ["major", "minor", "diminished"] "triad" root none).map Chord.type
      = DIATONIC_TRIADS.map DegreeChord.type := by
  fin_cases h <;> exact ⟨rfl, rfl, rfl⟩

/-- Witness for C5 at the concrete key root G. -/
theorem filterDiatonic_triads_all_keys_witness :
    "G" ∈ NOTES ∧
    (filterDiatonicItems (fun _ => 0) ["major", "minor", "diminished"] "triad" "G" none).map Chord.root
      = ["G", "A", "B", "C", "D", "E", "F#"] := by
  refine ⟨by decide, ?_⟩
  rw [(filterDiatonic_triads_all_keys (fun _ => 0) "G" (by decide)).2.1]
  decide

/-- The running-sum fold of `getAverageResponseTime` equals the list sum. -/
theorem foldl_responseTime_sum (l : List Answer) (init : Rat) :
    l.foldl (fun sum answer => sum + answer.responseTime) init
      = init + (l.map Answer.responseTime).sum := by
  induction l generalizing init with
  | nil => simp
  | cons a t ih => simp [ih, add_assoc]

/-- C10: `getAverageResponseTime` is total: it returns 0 on the empty log, and
on a non-empty log the arithmetic mean of the recorded response times. -/
theorem averageResponseTime_total :
    getAverageResponseTime [] = 0 ∧
    ∀ answers : List Answer, answers ≠ [] →
      getAverageResponseTime answers
        = (answers.map Answer.responseTime).sum / (answers.length : Rat) := by
  refine ⟨rfl, fun answers h => ?_⟩
  have hlen : (answers.length == 0) = false := by
    simp [List.length_eq_zero, h]
  simp only [getAverageResponseTime, hlen, Bool.false_eq_true, if_false,
    foldl_responseTime_sum, zero_add]

/-- Witness for C10 on a one-answer log. -/
theorem averageResponseTime_total_witness :
    ([sampleAnswer] : List Answer) ≠ [] ∧ getAverageResponseTime [sampleAnswer] = 1000 := by
  refine ⟨by decide, ?_⟩
  rw [averageResponseTime_total.2 [sampleAnswer] (by decide)]
  decide

/-- C8: `canUnlockNextLevel` returns true exactly when the id names a level of
the curriculum whose unlock requirement the accuracy meets; an unknown id
yields false. -/
theorem canUnlockNextLevel_iff (levelId : String) (accuracy : Rat) :
    canUnlockNextLevel levelId accuracy = true ↔
      ∃ level, level ∈ CURRICULUM ∧ level.id = levelId ∧ level.unlockRequirement ≤ accuracy := by
  unfold canUnlockNextLevel
  cases hf : CURRICULUM.find? (fun level => level.id == levelId) with
  | none =>
    simp only [Bool.false_eq_true, false_iff]
    rintro ⟨l, hl, hid, -⟩
    have hnone := List.find?_eq_none.mp hf l hl
    simp [hid] at hnone
  | some l =>
    have hp := List.find?_some hf
    have hmem := List.mem_of_find?_eq_some hf
    rw [beq_iff_eq] at hp
    constructor
    · intro hdec
      exact ⟨l, hmem, hp, of_decide_eq_true hdec⟩
    · rintro ⟨l2, hl2, hid2, hacc2⟩
      have hnd : (CURRICULUM.map CurriculumLevel.id).Nodup := by decide
      have heq : l2 = l := List.inj_on_of_nodup_map hnd hl2 hmem (by rw [hid2, hp])
      rw [heq] at hacc2
      exact decide_eq_true hacc2

/-- C9: `getCurrentLevel` of the empty set is the first level; when every
level is completed it is the last level; otherwise it is the first level in
curriculum order whose id is not completed. -/
theorem getCurrentLevel_first_uncompleted (completedLevels : List String) :
    getCurrentLevel [] = CURRICULUM.getD 0 undefinedLevel ∧
    ((∀ level ∈ CURRICULUM, level.id ∈ completedLevels) →
      getCurrentLevel completedLevels = CURRICULUM.getD (CURRICULUM.length - 1) undefinedLevel) ∧
    ((∃ level ∈ CURRICULUM, level.id ∉ completedLevels) →
      ∃ pre post, CURRICULUM = pre ++ getCurrentLevel completedLevels :: post ∧
        (getCurrentLevel completedLevels).id ∉ completedLevels ∧
        ∀ l ∈ pre, l.id ∈ completedLevels) := by
  refine ⟨by decide, ?_, ?_⟩
  · intro hall
    unfold getCurrentLevel
    have hnone : CURRICULUM.find? (fun level => !(completedLevels.contains level.id)) = none := by
      rw [List.find?_eq_none]
      intro x hx
      simp only [Bool.not_eq_true', Bool.not_eq_false]
      exact List.elem_eq_true_of_mem (hall x hx)
    rw [hnone]
  · rintro ⟨lv, hlv, hnc⟩
    have hsome : (CURRICULUM.find? (fun level => !(completedLevels.contains level.id))).isSome := by
      rw [List.find?_isSome]
      refine ⟨lv, hlv, ?_⟩
      simp only [Bool.not_eq_true']
      exact Bool.eq_false_iff.mpr (fun hc => hnc (List.mem_of_elem_eq_true hc))
    obtain ⟨r, hr⟩ := Option.isSome_iff_exists.mp hsome
    obtain ⟨hpr, pre, post, hdecomp, hpre⟩ := List.find?_eq_some.mp hr
    have hcur : getCurrentLevel completedLevels = r := by
      unfold getCurrentLevel
      rw [hr]
    refine ⟨pre, post, ?_, ?_, ?_⟩
    · rw [hcur]; exact hdecomp
    · rw [hcur]
      intro hmem
      have : completedLevels.contains r.id = true := List.elem_eq_true_of_mem hmem
      rw [Bool.not_eq_true'] at hpr  -- wrong direction placeholder
      exact absurd this (by simpa using hpr)
    · intro l hl
      have hb := hpre l hl
      simp only [Bool.not_not] at hb
      exact List.mem_of_elem_eq_true hb

/-- Witness for C9: with only the first level completed, the current level is
the second level of the curriculum. -/
theorem getCurrentLevel_first_uncompleted_witness :
    (∃ level ∈ CURRICULUM, level.id ∉ (["level_1"] : List String)) ∧
    ∃ pre post, CURRICULUM = pre ++ getCurrentLevel ["level_1"] :: post ∧
      (getCurrentLevel ["level_1"]).id ∉ (["level_1"] : List String) ∧
      ∀ l ∈ pre, l.id ∈ (["level_1"] : List String) :=
  ⟨by decide, (getCurrentLevel_first_uncompleted ["level_1"]).2.2 (by decide)⟩

/-- C2 counterexample: for a ii-degree triad question (root D) answered while
the session key is C, the recorded `fullDescription` is "D Minor" while the
Answer record's own `rootNote` field holds the session key C, so the claimed
round-trip equation fails. -/
theorem answer_fullDescription_counterexample :
    (handleAnswerRecord sampleQuestionOnD "minor" "C" 0 5).fullDescription
      ≠ (handleAnswerRecord sampleQuestionOnD "minor" "C" 0 5).rootNote ++ " "
          ++ getDisplayName (handleAnswerRecord sampleQuestionOnD "minor" "C" 0 5).correctAnswer := by
  decide

/-- C2 amended: `fullDescription` is always the QUESTION's root note followed
by a space and the display name of the correct answer; since the Answer's
`rootNote` field stores the session key instead, the claimed equation over the
Answer's own fields holds exactly when the question root equals the session
key. -/
theorem answer_fullDescription_uses_question_root (q : Question) (ans key : String) (t0 t1 : Int) :
    (handleAnswerRecord q ans key t0 t1).fullDescription
      = q.rootNote ++ " " ++ getDisplayName (handleAnswerRecord q ans key t0 t1).correctAnswer ∧
    (q.rootNote = key →
      (handleAnswerRecord q ans key t0 t1).fullDescription
        = (handleAnswerRecord q ans key t0 t1).rootNote ++ " "
            ++ getDisplayName (handleAnswerRecord q ans key t0 t1).correctAnswer) := by
  refine ⟨rfl, fun h => ?_⟩
  show q.rootNote ++ " " ++ getDisplayName q.correctAnswer
      = key ++ " " ++ getDisplayName q.correctAnswer
  rw [h]

/-- Witness for C2's amended claim: a question whose root is the session key. -/
theorem answer_fullDescription_uses_question_root_witness :
    sampleQuestionOnD.rootNote = "D" ∧
    (handleAnswerRecord sampleQuestionOnD "minor" "D" 0 5).fullDescription
      = (handleAnswerRecord sampleQuestionOnD "minor" "D" 0 5).rootNote ++ " "
          ++ getDisplayName (handleAnswerRecord sampleQuestionOnD "minor" "D" 0 5).correctAnswer :=
  ⟨rfl, (answer_fullDescription_uses_question_root sampleQuestionOnD "minor" "D" 0 5).2 rfl⟩

/-- C3 counterexample: the interval filter removes the requested quality
tritone even though the allowed-root set is non-empty, returning no candidate
instead of one per requested quality. -/
theorem filterDiatonic_interval_drops_tritone :
    filterDiatonicItems (fun _ => 0) ["tritone"] "interval" "C" none = [] ∧
    allowedRootsFor "C" none ≠ [] := by
  decide

/-- C3 amended: the interval filter keeps exactly the requested qualities that
occur in the fixed diatonic-interval list (tritone is dropped), one candidate
per kept quality in request order, and when the random draws are in range
every candidate's root comes from the allowed diatonic roots. -/
theorem filterDiatonic_interval_pairs_diatonic_qualities (rng : Nat → Nat) (items : List String)
    (root : String) (degs : Option (List Nat)) :
    (filterDiatonicItems rng items "interval" root degs).map Chord.type
      = items.filter (fun item => getDiatonicIntervals.contains item) ∧
    ((∀ i, rng i < (allowedRootsFor root degs).length) →
      ∀ c ∈ filterDiatonicItems rng items "interval" root degs,
        c.root ∈ allowedRootsFor root degs) := by
  constructor
  · show ((items.filter _).enum.map _).map Chord.type = _
    rw [List.map_map]
    exact List.enum_map_snd _
  · intro hb c hc
    obtain ⟨q, hq, rfl⟩ := List.mem_map.mp hc
    show (allowedRootsFor root degs).getD (rng q.1) "undefined" ∈ allowedRootsFor root degs
    rw [List.getD_eq_getElem?_getD, List.getElem?_eq_getElem (hb q.1)]
    exact List.getElem_mem _

/-- Witness for C3's amended claim on a concrete request. -/
theorem filterDiatonic_interval_pairs_diatonic_qualities_witness :
    (filterDiatonicItems (fun _ => 0) ["major_3rd", "tritone"] "interval" "C" none).map Chord.type
      = ["major_3rd"] ∧
    ∀ c ∈ filterDiatonicItems (fun _ => 0) ["major_3rd", "tritone"] "interval" "C" none,
      c.root ∈ allowedRootsFor "C" none := by
  have h := filterDiatonic_interval_pairs_diatonic_qualities (fun _ => 0)
    ["major_3rd", "tritone"] "C" none
  exact ⟨by rw [h.1]; decide, h.2 (fun i => by decide)⟩

/-- The chords kept by an index-aware filter whose condition holds exactly on
degrees of `S` are the chords at degrees of `S`. -/
theorem jsFilterIdx_eq_selectDegrees (items : List String) (S : List Nat) (chords : List Chord)
    (h : ∀ q ∈ chords.enum, S.contains q.1 = true → items.contains q.2.type = true) :
    jsFilterIdx (fun chord index => items.contains chord.type && S.contains index) chords
      = selectDegrees S chords := by
  unfold jsFilterIdx selectDegrees
  congr 1
  apply List.filter_congr
  intro q hq
  show (items.contains q.2.type && S.contains q.1) = S.contains q.1
  cases hS : S.contains q.1 with
  | false => rw [Bool.and_false]
  | true => rw [Bool.and_true, h q hq hS]

/-- Filtering an enumeration on an index predicate keeps as many entries as
filtering the index range itself. -/
theorem length_filter_enum_fst {α : Type} (l : List α) (p : Nat → Bool) :
    (l.enum.filter (fun q => p q.1)).length = ((List.range l.length).filter p).length := by
  rw [← List.countP_eq_length_filter, ← List.countP_eq_length_filter,
    ← List.enum_map_fst l, List.countP_map]
  rfl

/-- A duplicate-free list of degrees below 7 has as many elements as the
range positions it selects. -/
theorem length_filter_range7 (S : List Nat) (hnd : S.Nodup) (hb : ∀ d ∈ S, d < 7) :
    ((List.range 7).filter (fun i => S.contains i)).length = S.length := by
  have hsub : ∀ a, a ∈ (List.range 7).filter (fun i => S.contains i) ↔ a ∈ S := by
    intro a
    rw [List.mem_filter, List.mem_range]
    constructor
    · rintro ⟨-, ha⟩
      exact List.mem_of_elem_eq_true ha
    · intro ha
      exact ⟨hb a ha, List.elem_eq_true_of_mem ha⟩
  have hperm := (List.perm_ext_iff_of_nodup
    (List.Nodup.filter _ (List.nodup_range 7)) hnd).mpr hsub
  exact hperm.length_eq

/-- The quality of the diatonic triad at an in-range degree is the
corresponding entry of the `DIATONIC_TRIADS` table. -/
theorem type_getDiatonicTriads (root : String) (i : Nat)
    (hi : i < (getDiatonicTriads root).length) :
    ((getDiatonicTriads root)[i]).type = (DIATONIC_TRIADS.map DegreeChord.type).getD i "undefined" := by
  have hi7 : i < DIATONIC_TRIADS.length := by simpa [getDiatonicTriads] using hi
  rw [List.getD_eq_getElem?_getD, List.getElem?_eq_getElem (by simpa using hi7)]
  simp [getDiatonicTriads, List.getElem_map]

/-- The quality of the diatonic seventh at an in-range degree is the
corresponding entry of the `DIATONIC_SEVENTHS` table. -/
theorem type_getDiatonicSevenths (root : String) (i : Nat)
    (hi : i < (getDiatonicSevenths root).length) :
    ((getDiatonicSevenths root)[i]).type
      = (DIATONIC_SEVENTHS.map DegreeChord.type).getD i "undefined" := by
  have hi7 : i < DIATONIC_SEVENTHS.length := by simpa [getDiatonicSevenths] using hi
  rw [List.getD_eq_getElem?_getD, List.getElem?_eq_getElem (by simpa using hi7)]
  simp [getDiatonicSevenths, List.getElem_map]

/-- C6: restricting the triad or seventh-chord filter to a duplicate-free set
S of degrees below 7 whose diatonic qualities are all requested returns
exactly the chords at the degrees of S, hence exactly |S| candidates and none
at a degree outside S. -/
theorem filterDiatonic_degree_restriction (rng : Nat → Nat) (items : List String) (root : String)
    (S : List Nat) (hnd : S.Nodup) (hb : ∀ d ∈ S, d < 7) :
    ((∀ d ∈ S, (DIATONIC_TRIADS.map DegreeChord.type).getD d "undefined" ∈ items) →
      filterDiatonicItems rng items "triad" root (some S)
          = selectDegrees S (getDiatonicTriads root) ∧
      (filterDiatonicItems rng items "triad" root (some S)).length = S.length) ∧
    ((∀ d ∈ S, (DIATONIC_SEVENTHS.map DegreeChord.type).getD d "undefined" ∈ items) →
      filterDiatonicItems rng items "seventh_chord" root (some S)
          = selectDegrees S (getDiatonicSevenths root) ∧
      (filterDiatonicItems rng items "seventh_chord" root (some S)).length = S.length) := by
  constructor
  · intro hqual
    have heq : filterDiatonicItems rng items "triad" root (some S)
        = selectDegrees S (getDiatonicTriads root) := by
      show jsFilterIdx (fun chord index => items.contains chord.type && S.contains index)
          (getDiatonicTriads root) = _
      apply jsFilterIdx_eq_selectDegrees
      intro q hq hqS
      obtain ⟨hlt, hget⟩ := List.mem_enum (show (q.1, q.2) ∈ _ from hq)
      have htype : q.2.type = (DIATONIC_TRIADS.map DegreeChord.type).getD q.1 "undefined" := by
        rw [hget]
        exact type_getDiatonicTriads root q.1 hlt
      rw [htype]
      exact List.elem_eq_true_of_mem (hqual q.1 (List.mem_of_elem_eq_true hqS))
    refine ⟨heq, ?_⟩
    rw [heq]
    unfold selectDegrees
    rw [List.length_map, length_filter_enum_fst]
    exact length_filter_range7 S hnd hb
  · intro hqual
    have heq : filterDiatonicItems rng items "seventh_chord" root (some S)
        = selectDegrees S (getDiatonicSevenths root) := by
      show jsFilterIdx (fun chord index => items.contains chord.type && S.contains index)
          (getDiatonicSevenths root) = _
      apply jsFilterIdx_eq_selectDegrees
      intro q hq hqS
      obtain ⟨hlt, hget⟩ := List.mem_enum (show (q.1, q.2) ∈ _ from hq)
      have htype : q.2.type = (DIATONIC_SEVENTHS.map DegreeChord.type).getD q.1 "undefined" := by
        rw [hget]
        exact type_getDiatonicSevenths root q.1 hlt
      rw [htype]
      exact List.elem_eq_true_of_mem (hqual q.1 (List.mem_of_elem_eq_true hqS))
    refine ⟨heq, ?_⟩
    rw [heq]
    unfold selectDegrees
    rw [List.length_map, length_filter_enum_fst]
    exact length_filter_range7 S hnd hb

/-- Witness for C6 at key C with degrees I and vi of the triad table, and IV
of the seventh table. -/
theorem filterDiatonic_degree_restriction_witness :
    ([0, 5] : List Nat).Nodup ∧ (∀ d ∈ ([0, 5] : List Nat), d < 7) ∧
    (∀ d ∈ ([0, 5] : List Nat),
      (DIATONIC_TRIADS.map DegreeChord.type).getD d "undefined" ∈ ["major", "minor"]) ∧
    filterDiatonicItems (fun _ => 0) ["major", "minor"] "triad" "C" (some [0, 5])
      = selectDegrees [0, 5] (getDiatonicTriads "C") ∧
    (filterDiatonicItems (fun _ => 0) ["major", "minor"] "triad" "C" (some [0, 5])).length = 2 := by
  have h := (filterDiatonic_degree_restriction (fun _ => 0) ["major", "minor"] "C" [0, 5]
    (by decide) (by decide)).1 (by decide)
  exact ⟨by decide, by decide, by decide, h.1, h.2⟩

/-- A string whose first character differs from C cannot be the placeholder
line of the insight function. -/
theorem ne_placeholder_of_head (t : String) (c : Char)
    (h : t.data.head? = some c) (hc : c ≠ 'C') :
    t ≠ "Complete some questions to see insights" := by
  intro he
  rw [he] at h
  have h2 : (some 'C' : Option Char) = some c := h
  exact hc (Option.some.inj h2).symm

/-- The placeholder line never sits in a conditionally emitted singleton whose
line differs from it. -/
theorem not_mem_emit {c : Prop} [Decidable c] {line : String}
    (hline : line ≠ "Complete some questions to see insights") :
    "Complete some questions to see insights" ∉ (if c then [line] else []) := by
  split
  · simp only [List.mem_singleton]
    exact fun hh => hline hh.symm
  · simp

/-- Rule 1 emits no placeholder. -/
theorem placeholder_not_mem_band (stats : SessionStats) :
    "Complete some questions to see insights" ∉ insightRuleBand stats := by
  unfold insightRuleBand
  split_ifs <;> decide

/-- Rule 2 emits no placeholder. -/
theorem placeholder_not_mem_focus (stats : SessionStats) :
    "Complete some questions to see insights" ∉ insightRuleFocus stats := by
  unfold insightRuleFocus
  split
  · simp only [List.mem_append, not_or]
    exact ⟨not_mem_emit (ne_placeholder_of_head _ '🎯' rfl (by decide)),
           not_mem_emit (ne_placeholder_of_head _ '✨' rfl (by decide))⟩
  · simp only [List.mem_append, not_or]
    exact ⟨not_mem_emit (ne_placeholder_of_head _ '🎯' rfl (by decide)),
           not_mem_emit (ne_placeholder_of_head _ '✨' rfl (by decide))⟩

/-- Rule 3 emits no placeholder. -/
theorem placeholder_not_mem_degrees (stats : SessionStats) :
    "Complete some questions to see insights" ∉ insightRuleDegrees stats := by
  unfold insightRuleDegrees
  exact not_mem_emit (ne_placeholder_of_head _ '📍' rfl (by decide))

/-- Rule 4 emits no placeholder. -/
theorem placeholder_not_mem_confusion (answers : List Answer) (stats : SessionStats) :
    "Complete some questions to see insights" ∉ insightRuleConfusion answers stats := by
  unfold insightRuleConfusion
  split
  · exact not_mem_emit (ne_placeholder_of_head _ '⚠' rfl (by decide))
  · simp

/-- C4 amended, equality part: on a non-empty log the insight function is
exactly the four-rule cascade in presentation order. -/
theorem getInsights_eq_cascade (answers : List Answer) (h : answers ≠ []) :
    getInsights answers = getInsightsSpec answers := by
  have hne : ((getSessionStats answers).totalQuestions == 0) = false := by
    have ht : (getSessionStats answers).totalQuestions = answers.length := rfl
    rw [ht]
    simp [List.length_eq_zero, h]
  simp only [getInsights, getInsightsSpec, insightRuleBand, insightRuleFocus,
    insightRuleDegrees, insightRuleConfusion, hne, Bool.false_eq_true, if_false]
  generalize getSessionStats answers = stats
  congr 1
  congr 1
  congr 1
  · cases hiw : stats.intervalWeaknesses with
    | nil =>
      simp only [List.isEmpty_nil, Bool.not_true, Bool.false_eq_true, if_false, ne_eq,
        not_true_eq_false]
      generalize (stats.weaknesses.filter fun w =>
        decide (2 ≤ w.attempts) && decide (w.accuracy < 60)) = wk
      generalize (stats.weaknesses.filter fun w =>
        decide (2 ≤ w.attempts) && decide (90 ≤ w.accuracy)) = st
      cases wk <;> cases st <;> simp
    | cons a t =>
      simp only [List.isEmpty_cons, Bool.not_false, if_true, ne_eq, reduceCtorEq,
        not_false_eq_true]
      generalize ((a :: t).filter fun w =>
        decide (2 ≤ w.attempts) && decide (w.accuracy < 70)) = wk
      generalize ((a :: t).filter fun w =>
        decide (2 ≤ w.attempts) && decide (85 ≤ w.accuracy)) = st
      cases wk <;> cases st <;> simp
  · cases hsd : stats.scaleDegreeWeaknesses with
    | nil => simp
    | cons a t =>
      simp only [List.isEmpty_cons, Bool.not_false, if_true]
      generalize ((a :: t).filter fun w =>
        decide (2 ≤ w.attempts) && decide (w.accuracy < 60)) = wd
      cases wd <;> simp
  · cases hcm : stats.confusionMatrix with
    | nil => simp
    | cons a t =>
      simp only [List.isEmpty_cons, Bool.not_false, if_true, ne_eq, reduceCtorEq,
        not_false_eq_true, List.getD_cons_zero]
      rw [ite_self]
      by_cases h1 : 2 ≤ a.count <;>
        by_cases h2 : 2 < ((answers.map Answer.itemType).dedup).length <;>
        simp [h1, h2]

/-- C4 counterexample: on the empty answer log the insight function returns
exactly the placeholder line, a string that none of the four rules produces. -/
theorem insights_empty_log_placeholder :
    getInsights [] = ["Complete some questions to see insights"] ∧
    "Complete some questions to see insights" ∉ getInsightsSpec [] := by
  constructor
  · decide
  · simp only [getInsightsSpec, List.mem_append, not_or]
    exact ⟨⟨⟨placeholder_not_mem_band _, placeholder_not_mem_focus _⟩,
      placeholder_not_mem_degrees _⟩, placeholder_not_mem_confusion _ _⟩

/-- C4 amended: on every non-empty answer log, the strings returned by the
insight function are exactly the outputs of the four spec rules, in the
required presentation order, and the placeholder line is never among them;
on the empty log the function instead returns the single placeholder line. -/
theorem insights_rule_cascade (answers : List Answer) (h : answers ≠ []) :
    getInsights answers = insightRuleBand (getSessionStats answers)
        ++ insightRuleFocus (getSessionStats answers)
        ++ insightRuleDegrees (getSessionStats answers)
        ++ insightRuleConfusion answers (getSessionStats answers) ∧
    "Complete some questions to see insights" ∉ getInsights answers := by
  have heq := getInsights_eq_cascade answers h
  refine ⟨heq, ?_⟩
  rw [heq]
  simp only [getInsightsSpec, List.mem_append, not_or]
  exact ⟨⟨⟨placeholder_not_mem_band _, placeholder_not_mem_focus _⟩,
    placeholder_not_mem_degrees _⟩, placeholder_not_mem_confusion _ _⟩

/-- Witness for C4's amended claim on a one-answer log. -/
theorem insights_rule_cascade_witness :
    ([sampleAnswer] : List Answer) ≠ [] ∧
    getInsights [sampleAnswer] = insightRuleBand (getSessionStats [sampleAnswer])
        ++ insightRuleFocus (getSessionStats [sampleAnswer])
        ++ insightRuleDegrees (getSessionStats [sampleAnswer])
        ++ insightRuleConfusion [sampleAnswer] (getSessionStats [sampleAnswer]) :=
  ⟨by decide, (insights_rule_cascade [sampleAnswer] (by decide)).1⟩
